import Mathlib

/-!
Verification development for the a11y-evaluator LLM invocation and validation
pipeline.  The definitions below are a shallow embedding of the Python sources
`backend/retry_logic.py`, `backend/llm_clients.py` and `backend/wcag_analyzer.py`.
Python strings are modelled as lists of characters (`PyStr`), floats as
rationals, wall-clock timestamps as rationals, and the external LLM calls as
explicit oracle parameters.
-/

namespace A11y

/-- Python strings, modelled as lists of characters. -/
abbrev PyStr := List Char

/-- Characters that Python's `str.strip` / `str.split` treat as whitespace
(space, tab, newline, carriage return, vertical tab, form feed). -/
def pyIsWs (c : Char) : Bool :=
  c = ' ' || c = '\t' || c = '\n' || c = '\r' || c = Char.ofNat 11 || c = Char.ofNat 12

/-- `s.split('\n')` from Python: splits on every newline, keeping empty parts. -/
def pyLines : PyStr → List PyStr
  | [] => [[]]
  | c :: rest =>
    if c = '\n' then [] :: pyLines rest
    else
      match pyLines rest with
      | [] => [[c]]
      | l :: ls => (c :: l) :: ls

/-- Python `s.strip()`: drop leading and trailing whitespace. -/
def pyStrip (s : PyStr) : PyStr :=
  (((s.dropWhile pyIsWs).reverse.dropWhile pyIsWs)).reverse

/-- Boolean test for `pat` being an initial segment of `s`. -/
def startsWithB : PyStr → PyStr → Bool
  | [], _ => true
  | _ :: _, [] => false
  | a :: as, b :: bs => a = b && startsWithB as bs

/-- Python substring containment `pat in s` (empty `pat` is contained). -/
def isSubstr (pat : PyStr) : PyStr → Bool
  | [] => startsWithB pat []
  | c :: rest => startsWithB pat (c :: rest) || isSubstr pat rest

/-- Python `s.split()` (no separator): split on whitespace runs, no empty parts. -/
def pySplitWsAux : PyStr → PyStr → List PyStr
  | [], acc => if acc.isEmpty then [] else [acc.reverse]
  | c :: rest, acc =>
    if pyIsWs c then
      if acc.isEmpty then pySplitWsAux rest [] else acc.reverse :: pySplitWsAux rest []
    else pySplitWsAux rest (c :: acc)

/-- Python `s.split()` with no arguments. -/
def pySplitWs (s : PyStr) : List PyStr := pySplitWsAux s []

/-- Python `s.lower()` (ASCII case folding suffices for this code base). -/
def pyLower (s : PyStr) : PyStr := s.map Char.toLower

/-- `re.sub(r'\s+', '', s)`: remove every whitespace character. -/
def removeWs (s : PyStr) : PyStr := s.filter (fun c => !pyIsWs c)

/-- Python `s.find(pat)` returning the index of the first occurrence, if any. -/
def pyFind (pat : PyStr) : PyStr → Option Nat
  | [] => if startsWithB pat [] then some 0 else none
  | c :: rest =>
    if startsWithB pat (c :: rest) then some 0
    else (pyFind pat rest).map (· + 1)

/-- Python `s.find(pat, start)`. -/
def pyFindFrom (pat : PyStr) (s : PyStr) (start : Nat) : Option Nat :=
  (pyFind pat (s.drop start)).map (· + start)

/-- Python `s.find(c)` for a single character. -/
def findChar (c : Char) (s : PyStr) : Option Nat := pyFind [c] s

/-- Helper for `rfindChar`, scanning left to right and remembering the last hit. -/
def rfindCharAux (c : Char) : PyStr → Nat → Option Nat → Option Nat
  | [], _, best => best
  | x :: rest, i, best => rfindCharAux c rest (i + 1) (if x = c then some i else best)

/-- Python `s.rfind(c)` for a single character. -/
def rfindChar (c : Char) (s : PyStr) : Option Nat := rfindCharAux c s 0 none

/-- Python slice `s[a:b]` for non-negative indices. -/
def pySlice (s : PyStr) (a b : Nat) : PyStr := (s.drop a).take (b - a)

/-- Python `'\n'.join(lines)`. -/
def joinLines (ls : List PyStr) : PyStr := List.intercalate ['\n'] ls

/-- Flatten a list of issue lists in order (`all_issues.extend(...)` per chunk). -/
def concatAll {α : Type} (ls : List (List α)) : List α := ls.foldr (· ++ ·) []

/-! ## Model of `backend/retry_logic.py` -/

/-- `CircuitBreakerState` enum from `retry_logic.py` (`open` is a Lean keyword,
so the constructor is spelled `opened`). -/
inductive CircuitBreakerStateE where
  | closed
  | opened
  | halfOpen
  deriving DecidableEq, Repr

/-- Outcome of the wrapped unit of work: the provider call succeeds or raises. -/
inductive CallOutcome where
  | success
  | failure
  deriving DecidableEq, Repr

/-- Result of one `CircuitBreaker.call_async` invocation: either rejected with a
`CircuitOpen` error (work not executed) or the work ran with the given outcome. -/
inductive CallResult where
  | rejected
  | ran (o : CallOutcome)
  deriving DecidableEq, Repr

/-- Mutable state of the `CircuitBreaker` class (timestamps are rationals). -/
structure CircuitBreaker where
  failure_threshold : Nat
  recovery_timeout : ℚ
  failure_count : Nat
  success_count : Nat
  half_open_success_threshold : Nat
  last_failure_time : Option ℚ
  state : CircuitBreakerStateE
  deriving DecidableEq, Repr

/-- `CircuitBreaker.__init__`: `failure_count = 0`, `last_failure_time = None`,
state `CLOSED`, `half_open_success_threshold = 2`. -/
def initBreaker (ft : Nat) (rt : ℚ) : CircuitBreaker :=
  { failure_threshold := ft, recovery_timeout := rt, failure_count := 0,
    success_count := 0, half_open_success_threshold := 2,
    last_failure_time := none, state := .closed }

/-- `CircuitBreaker._should_attempt_reset` at wall-clock time `now`. -/
def should_attempt_reset (b : CircuitBreaker) (now : ℚ) : Bool :=
  match b.last_failure_time with
  | none => true
  | some t => decide (b.recovery_timeout ≤ now - t)

/-- `CircuitBreaker._on_success`. -/
def on_success (b : CircuitBreaker) : CircuitBreaker :=
  if b.state = .halfOpen then
    if b.half_open_success_threshold ≤ b.success_count + 1 then
      { b with success_count := b.success_count + 1, state := .closed, failure_count := 0 }
    else { b with success_count := b.success_count + 1 }
  else if b.state = .closed then { b with failure_count := 0 }
  else b

/-- `CircuitBreaker._on_failure` at wall-clock time `now`: increment the
failure count, record the failure time, and open when in `HALF_OPEN` or when
the incremented count reaches the threshold. -/
def on_failure (b : CircuitBreaker) (now : ℚ) : CircuitBreaker :=
  if b.state = .halfOpen then
    { b with failure_count := b.failure_count + 1, last_failure_time := some now,
             state := .opened }
  else if b.failure_threshold ≤ b.failure_count + 1 then
    { b with failure_count := b.failure_count + 1, last_failure_time := some now,
             state := .opened }
  else { b with failure_count := b.failure_count + 1, last_failure_time := some now }

/-- The `try/except` body shared by `call` and `call_async`: run the work and
apply `_on_success` or `_on_failure`. -/
def execWork (b : CircuitBreaker) (now : ℚ) (o : CallOutcome) : CircuitBreaker × CallResult :=
  match o with
  | .success => (on_success b, .ran .success)
  | .failure => (on_failure b now, .ran .failure)

/-- `CircuitBreaker.call_async` (identical gate logic to the sync `call`):
while `OPEN`, either transition to `HALF_OPEN` when the recovery timeout has
elapsed or reject without running the work. -/
def call_async (b : CircuitBreaker) (now : ℚ) (o : CallOutcome) : CircuitBreaker × CallResult :=
  if b.state = .opened then
    if should_attempt_reset b now then
      execWork { b with state := .halfOpen, success_count := 0 } now o
    else (b, .rejected)
  else execWork b now o

/-- Drive a breaker through a sequence of `(now, outcome)` call events. -/
def runTrace (b : CircuitBreaker) (events : List (ℚ × CallOutcome)) : CircuitBreaker :=
  events.foldl (fun b e => (call_async b e.1 e.2).1) b

/-- `RetryStrategy` enum. -/
inductive RetryStrategy where
  | exponentialBackoff
  | linearBackoff
  | fixedDelay
  | noRetry
  deriving DecidableEq, Repr

/-- Errors raised by the wrapped work or by the circuit breaker gate.  The
`retryable_exceptions` isinstance test is abstracted by a predicate on these. -/
inductive RErr where
  | circuitOpen
  | err (code : Nat)
  deriving DecidableEq, Repr

/-- `RetryConfig` from `retry_logic.py`; `retryableP` models the
`isinstance(e, t) for t in retryable_exceptions` test and `circuitBreaker` the
optional breaker object (its initial state). -/
structure RetryConfig where
  max_attempts : Nat
  initial_delay : ℚ
  max_delay : ℚ
  exponential_base : ℚ
  strategy : RetryStrategy
  retryableP : RErr → Bool
  jitter : Bool
  circuitBreaker : Option CircuitBreaker

/-- `RetryConfig.should_retry(exception, attempt)`; reads the breaker state as
mutated by the failing call. -/
def should_retry (cfg : RetryConfig) (cb : Option CircuitBreaker) (e : RErr) (attempt : Nat) : Bool :=
  if cfg.max_attempts ≤ attempt then false
  else if !cfg.retryableP e then false
  else
    match cb with
    | some b => !(b.state = .opened)
    | none => true

/-- `RetryConfig.get_delay(attempt)`.  The `random.uniform(-j, j)` sample is
modelled by a relative factor `r ∈ [-1, 1]`, i.e. the sampled jitter is
`r * (delay * 0.1)`. -/
def get_delay (cfg : RetryConfig) (attempt : Nat) (r : ℚ) : ℚ :=
  if cfg.strategy = .noRetry then 0
  else
    let d0 : ℚ :=
      if cfg.strategy = .fixedDelay then cfg.initial_delay
      else if cfg.strategy = .linearBackoff then cfg.initial_delay * attempt
      else cfg.initial_delay * cfg.exponential_base ^ (attempt - 1)
    let d1 := min d0 cfg.max_delay
    if cfg.jitter then max 0 (d1 + r * (d1 * (1 / 10))) else d1

/-- One iteration of the attempt body: go through the breaker (which may reject
without invoking the work) or call the work directly.  `f n` is the result of
the `n`-th actual invocation of the wrapped function; `ncalls` counts how many
invocations have happened so far.  Returns the updated breaker, the updated
invocation count and the attempt's outcome. -/
def attemptOnce {α : Type} (cb : Option CircuitBreaker) (f : Nat → Except RErr α)
    (ncalls : Nat) (now : ℚ) : Option CircuitBreaker × Nat × Except RErr α :=
  match cb with
  | none => (none, ncalls + 1, f ncalls)
  | some b =>
    if b.state = .opened then
      if should_attempt_reset b now then
        let b1 := { b with state := .halfOpen, success_count := 0 }
        match f ncalls with
        | .ok a => (some (on_success b1), ncalls + 1, .ok a)
        | .error e => (some (on_failure b1 now), ncalls + 1, .error e)
      else (some b, ncalls, .error .circuitOpen)
    else
      match f ncalls with
      | .ok a => (some (on_success b), ncalls + 1, .ok a)
      | .error e => (some (on_failure b now), ncalls + 1, .error e)

/-- The shared `for attempt in range(1, max_attempts + 1)` loop body of
`retry_async` and `retry_sync`.  `remaining` counts the loop iterations left,
`attempt` is the 1-based attempt number, `lastE` is `last_exception` (with
`none` modelling the initial Python `None`), and `times attempt` is the wall
clock at attempt `attempt`.  The result pairs the returned value or raised
exception with the total number of invocations of the wrapped function. -/
def retryGo {α : Type} (cfg : RetryConfig) (f : Nat → Except RErr α) (times : Nat → ℚ)
    (cb : Option CircuitBreaker) (attempt ncalls : Nat) (lastE : Option RErr) :
    Nat → Except (Option RErr) α × Nat
  | 0 => (.error lastE, ncalls)
  | r + 1 =>
    match attemptOnce cb f ncalls (times attempt) with
    | (_, nc1, .ok a) => (.ok a, nc1)
    | (cb1, nc1, .error e) =>
      if should_retry cfg cb1 e attempt then
        retryGo cfg f times cb1 (attempt + 1) nc1 (some e) r
      else (.error (some e), nc1)

/-- `retry_async(func, config=cfg)`: run the attempt loop from attempt 1. -/
def retry_async {α : Type} (cfg : RetryConfig) (f : Nat → Except RErr α)
    (times : Nat → ℚ) : Except (Option RErr) α × Nat :=
  retryGo cfg f times cfg.circuitBreaker 1 0 none cfg.max_attempts

/-- `retry_sync(func, config=cfg)`: the sync variant has the same attempt loop
and the same breaker gate logic (`CircuitBreaker.call` mirrors `call_async`). -/
def retry_sync {α : Type} (cfg : RetryConfig) (f : Nat → Except RErr α)
    (times : Nat → ℚ) : Except (Option RErr) α × Nat :=
  retryGo cfg f times cfg.circuitBreaker 1 0 none cfg.max_attempts

/-! ## Model of `backend/llm_clients.py` -/

/-- The entries of `validation_result["validation_notes"]`; the formatted
message strings are abstracted to their cases and line numbers. -/
inductive VNote where
  | noLineNumbers
  | snippetMatches (n : Int)
  | snippetMismatch (n : Int)
  | outOfBounds (n : Int)
  deriving DecidableEq, Repr

/-- The dict built by `_validate_issue_accuracy` (a float confidence is a ℚ). -/
structure ValidationResult where
  is_valid : Bool := false
  confidence : ℚ := 0
  validation_notes : List VNote := []
  deriving DecidableEq, Repr

/-- An opaque identifier standing in for one entry of a fix's `changes` list. -/
structure Change where
  tag : Nat
  deriving DecidableEq, Repr

/-- A parsed finding (issue dict).  String-valued fields are `PyStr`s; the
`chunk_info` debug string `"Lines a-b"` is abstracted to the pair `(a, b)`. -/
structure Issue where
  issue_id : PyStr := []
  wcag_guideline : PyStr := []
  severity : PyStr := []
  line_numbers : List Int := []
  description : PyStr := []
  code_snippet : PyStr := []
  recommendation : PyStr := []
  category : PyStr := []
  validation : Option ValidationResult := none
  chunk_info : Option (Nat × Nat) := none
  deriving DecidableEq, Repr, Inhabited

/-- Per-line check inside the `_validate_issue_accuracy` loop: in-bounds lines
match when the (stripped) snippet is nonempty and is contained in the stripped
line, or some whitespace-token of the snippet of length > 3 is contained in the
line.  Returns the match flag and the note appended for this line. -/
def checkLine (lines : List PyStr) (snippet : PyStr) (n : Int) : Bool × VNote :=
  if 1 ≤ n ∧ n ≤ (lines.length : Int) then
    let lineContent := pyStrip (lines.getD (n - 1).toNat [])
    if !snippet.isEmpty &&
        (isSubstr snippet lineContent ||
          (pySplitWs snippet).any (fun w => decide (3 < w.length) && isSubstr w lineContent)) then
      (true, .snippetMatches n)
    else (false, .snippetMismatch n)
  else (false, .outOfBounds n)

/-- `LLMClient._validate_issue_accuracy(issue, original_code)`. -/
def validate_issue_accuracy (issue : Issue) (original_code : PyStr) : ValidationResult :=
  let lines := pyLines original_code
  match issue.line_numbers with
  | [] => { is_valid := false, confidence := 0, validation_notes := [.noLineNumbers] }
  | ns =>
    let snippet := pyStrip issue.code_snippet
    let results := ns.map (checkLine lines snippet)
    let validCount := results.countP (fun r => r.1)
    let conf : ℚ := (validCount : ℚ) / (ns.length : ℚ)
    { is_valid := decide ((1 : ℚ) / 2 ≤ conf), confidence := conf,
      validation_notes := results.map (fun r => r.2) }

/-- Markers standing in for the `error` message strings attached to result
dicts (the exact formatted text is abstracted to its case). -/
inductive ErrMark where
  | parseFail
  | parseExc
  | detectError
  | replicateTimeout
  | replicateApiError
  deriving DecidableEq, Repr

/-- The result dicts produced by `_parse_json_response`, the detection entry
points and the Replicate adapter.  `file_info` carries no pipeline-relevant
data and is omitted; `nonDictReturned` marks the (dead) regex-fallback branch
in which the Python parser would return a non-dict JSON value as-is. -/
structure PResult where
  total_issues : Int := 0
  issues : List Issue := []
  error : Option ErrMark := none
  raw_response : Option PyStr := none
  analysis_chunked : Bool := false
  nonDictReturned : Bool := false
  deriving DecidableEq, Repr

/-- A JSON value as `json.loads` can return it, restricted to what the parser
inspects: a dict with optional `issues` and `total_issues` entries, or any
non-dict value. -/
inductive JVal where
  | dictV (issues : Option (List Issue)) (total : Option Int)
  | nonDict
  deriving DecidableEq, Repr

/-- The backtick character (used by fenced markdown code blocks). -/
def btick : Char := Char.ofNat 96

/-- The 3-character markdown fence. -/
def fenceMark : PyStr := [btick, btick, btick]

/-- The 7-character fence with language tag, as searched for by the parser. -/
def fenceJsonMark : PyStr := fenceMark ++ [
  'j', 's', 'o', 'n']

/-- The fence-stripping prelude of `_parse_json_response`: if a fenced block
with (or without) a `json` language tag is present and closed, replace the
content by the stripped block interior. -/
def stripFences (content : PyStr) : PyStr :=
  if isSubstr fenceJsonMark content then
    match pyFind fenceJsonMark content with
    | some idx =>
      match pyFindFrom fenceMark content (idx + 7) with
      | some e => pyStrip (pySlice content (idx + 7) e)
      | none => content
    | none => content
  else if isSubstr fenceMark content then
    match pyFind fenceMark content with
    | some idx =>
      match pyFindFrom fenceMark content (idx + 3) with
      | some e => pyStrip (pySlice content (idx + 3) e)
      | none => content
    | none => content
  else content

/-- `content[:500] + "..." if len(content) > 500 else content`. -/
def excerpt500 (c : PyStr) : PyStr :=
  if 500 < c.length then c.take 500 ++ ['.', '.', '.'] else c

/-- The parser's explicit fallback dict: empty issues, a parse-failure error
marker, and a bounded `raw_response` excerpt. -/
def parseFailResult (content : PyStr) : PResult :=
  { total_issues := 0, issues := [], error := some .parseFail,
    raw_response := some (excerpt500 content) }

/-- The outer `except Exception` fallback of `_parse_json_response` (reached
when `json.loads` yields a non-dict and `.get` raises `AttributeError`). -/
def outerExcResult (content : PyStr) : PResult :=
  { total_issues := 0, issues := [], error := some .parseExc,
    raw_response := some (excerpt500 content) }

/-- The `return parsed` of the regex-fallback branch, which skips the
field normalization; a non-dict value is flagged by `nonDictReturned`
(that branch is unreachable in executions, see the development's theorems). -/
def jvalToRawResult (v : JVal) : PResult :=
  match v with
  | .dictV issues total =>
    { total_issues := total.getD 0, issues := issues.getD [], error := none,
      raw_response := none }
  | .nonDict => { nonDictReturned := true }

/-- The `re.search(r'\{.*\}', content, re.DOTALL)` fallback: greedy match from
the first opening brace to the last closing brace, then one more parse try. -/
def regexFallback (jp : PyStr → Option JVal) (content : PyStr) : PResult :=
  match findChar '{' content, rfindChar '}' content with
  | some s, some e =>
    if s < e then
      match jp (pySlice content s (e + 1)) with
      | some v => jvalToRawResult v
      | none => parseFailResult content
    else parseFailResult content
  | _, _ => parseFailResult content

/-- `LLMClient._parse_json_response(content)`, with `json.loads` modelled by
the oracle `jp` (returning `none` when the text is not valid JSON). -/
def parse_json_response (jp : PyStr → Option JVal) (content0 : PyStr) : PResult :=
  let content := stripFences content0
  match findChar '{' content, rfindChar '}' content with
  | some s, some e =>
    if s < e then
      match jp (pySlice content s (e + 1)) with
      | some (.dictV issues total) =>
        let issues' := issues.getD []
        { total_issues := total.getD (issues'.length : Int), issues := issues',
          error := none, raw_response := none }
      | some .nonDict => outerExcResult content
      | none => regexFallback jp content
    else regexFallback jp content
  | _, _ => regexFallback jp content

/-- The model string that triggers chunking in `detect_accessibility_issues`. -/
def llamaModel : PyStr := "llama-maverick".toList

/-- The validation-and-filter pass of `detect_accessibility_issues`: when the
raw result's issue list is truthy, attach a `validation` result to every issue
and keep only those with confidence at least 0.3. -/
def validateAndFilter (raw : PResult) (code : PyStr) : PResult :=
  if raw.issues.isEmpty then raw
  else
    let vs := raw.issues.filterMap (fun iss =>
      let v := validate_issue_accuracy iss code
      if (3 : ℚ) / 10 ≤ v.confidence then some { iss with validation := some v } else none)
    { raw with issues := vs, total_issues := (vs.length : Int) }

/-- The error dict returned by `detect_accessibility_issues`'s `except` clause. -/
def detectErrorResult : PResult :=
  { total_issues := 0, issues := [], error := some .detectError }

/-- The chunk starting offsets `range(0, len(lines), 100)`. -/
def chunkStarts (n : Nat) : List Nat := (List.range ((n + 99) / 100)).map (· * 100)

/-- `'\n'.join(lines[i:i+100])`: the text of the chunk starting at offset `i`. -/
def chunkOf (lines : List PyStr) (i : Nat) : PyStr := joinLines ((lines.drop i).take 100)

/-- The per-issue line-number adjustment and chunk tagging applied before a
chunk's issues are merged: every integer line number is shifted by the chunk
offset `i` (= `start_line - 1`), and `chunk_info` records the chunk's span. -/
def adjustIssue (i : Nat) (nlines : Nat) (issue : Issue) : Issue :=
  { issue with line_numbers := issue.line_numbers.map (fun k => k + (i : Int)),
               chunk_info := some (i + 1, min (i + 100) nlines) }

/-- Processing of one chunk inside `_detect_issues_chunked`: skip blank chunks,
skip chunks whose model call raised (`oracle i = none`), and otherwise merge
the chunk's issues after adjusting their line numbers.  No validation result is
attached on this path. -/
def processChunk (oracle : Nat → Option PResult) (lines : List PyStr) (i : Nat) : List Issue :=
  if (pyStrip (chunkOf lines i)).isEmpty then []
  else
    match oracle i with
    | none => []
    | some res =>
      if res.issues.isEmpty then []
      else res.issues.map (adjustIssue i lines.length)

/-- `LLMClient._detect_issues_chunked(code, filename, model)`, with the
per-chunk `_call_model` results provided by `oracle` (indexed by the chunk's
0-based starting line offset). -/
def detect_issues_chunked (oracle : Nat → Option PResult) (code : PyStr) : PResult :=
  let lines := pyLines code
  let allIssues := concatAll ((chunkStarts lines.length).map (processChunk oracle lines))
  { total_issues := (allIssues.length : Int), issues := allIssues,
    analysis_chunked := true }

/-- The external LLM calls of one detection request: `main` is the result of
the single whole-file `_call_model` call (`none` models a raised exception) and
`chunk i` the result for the chunk at line offset `i`. -/
structure LLMOracle where
  main : Option PResult
  chunk : Nat → Option PResult

/-- `LLMClient.detect_accessibility_issues(code, filename, model)`: chunk when
the model is `llama-maverick` and the code exceeds 2000 characters, otherwise
call once, validate every returned issue and drop those below confidence 0.3. -/
def detect_accessibility_issues (o : LLMOracle) (code : PyStr) (model : PyStr) : PResult :=
  if model = llamaModel ∧ 2000 < code.length then detect_issues_chunked o.chunk code
  else
    match o.main with
    | some raw => validateAndFilter raw code
    | none => detectErrorResult

/-! ### Fix pipeline -/

/-- The structural regex patterns of `_validate_fix_quality`'s table, named
after what they detect; their regex semantics is abstracted by the `rsearch`
oracle passed to the functions below. -/
inductive FixPattern where
  | altAttr
  | onkeydownAttr
  | onkeypressAttr
  | tabindexAttr
  | focusRule
  | focusVisible
  | labelTag
  | ariaLabel
  | ariaLabelledby
  | roleAttr
  | ariaAny
  deriving DecidableEq, Repr

/-- The `validation_patterns` table keyed by the guideline number prefix. -/
def fixValidationPatterns (t : PyStr) : Option (List FixPattern) :=
  if t = "1.1.1".toList then some [.altAttr]
  else if t = "2.1.1".toList then some [.onkeydownAttr, .onkeypressAttr, .tabindexAttr]
  else if t = "2.4.7".toList then some [.focusRule, .focusVisible]
  else if t = "3.3.2".toList then some [.labelTag, .ariaLabel, .ariaLabelledby]
  else if t = "4.1.2".toList then some [.roleAttr, .ariaAny]
  else none

/-- The `"// FIXED"` marker string. -/
def fixedMarker : PyStr := "// FIXED".toList

/-- `issue.get("wcag_guideline", "").split()[0] if issue.get("wcag_guideline")
else ""`; `none` models the `IndexError` raised when the guideline is nonempty
but whitespace-only. -/
def issueTypeOf (issue : Issue) : Option PyStr :=
  if issue.wcag_guideline.isEmpty then some []
  else
    match pySplitWs issue.wcag_guideline with
    | [] => none
    | w :: _ => some w

/-- `LLMClient._validate_fix_quality(original_code, fixed_code, issue)`, with
`re.search` on the pattern table abstracted by `rsearch`.  Accepts when some
table pattern for the issue's guideline matches the fixed code but not the
original, or else when the fixed code contains `"// FIXED"` or is longer than
the original.  `none` models the `IndexError` case of `issueTypeOf`. -/
def validate_fix_quality (rsearch : FixPattern → PyStr → Bool)
    (original_code fixed_code : PyStr) (issue : Issue) : Option Bool :=
  match issueTypeOf issue with
  | none => none
  | some t =>
    let patterned :=
      match fixValidationPatterns t with
      | some pats => pats.any (fun p => rsearch p fixed_code && !rsearch p original_code)
      | none => false
    some (patterned || isSubstr fixedMarker fixed_code
          || decide (original_code.length < fixed_code.length))

/-- The result of one remediation `_call_model` call: the `fixed_code` and
`changes` entries of the returned dict (`none` entries model missing keys). -/
structure FixCallResult where
  fixed_code : Option PyStr := none
  changes : List Change := []

/-- Loop state of the fix loop in `fix_accessibility_issues`.  The `attempted`
field is proof instrumentation recording, in order, the issues for which a fix
was actually attempted (a remediation prompt built and `_call_model` invoked);
`ncalls` counts those attempts and indexes the fix oracle. -/
structure FixState where
  fixed_code : PyStr
  changes : List Change := []
  successful_fixes : Nat := 0
  ncalls : Nat := 0
  attempted : List Issue := []

/-- The confidence gate of the fix loop:
`issue.get("validation", {}).get("confidence", 0) >= 0.5`. -/
def fixGate (issue : Issue) : Bool :=
  match issue.validation with
  | some v => decide ((1 : ℚ) / 2 ≤ v.confidence)
  | none => false

/-- One iteration of the fix loop: gated issues get a fix attempt whose result
is validated by `_validate_fix_quality`; failed calls, missing `fixed_code`,
rejected fixes and validator exceptions all leave the running code unchanged. -/
def fixStep (fo : Nat → Option FixCallResult) (rsearch : FixPattern → PyStr → Bool)
    (st : FixState) (issue : Issue) : FixState :=
  if fixGate issue then
    let st1 := { st with ncalls := st.ncalls + 1, attempted := st.attempted ++ [issue] }
    match fo st.ncalls with
    | none => st1
    | some fr =>
      match fr.fixed_code with
      | none => st1
      | some newCode =>
        match validate_fix_quality rsearch st.fixed_code newCode issue with
        | some true =>
          { st1 with fixed_code := newCode, changes := st.changes ++ fr.changes,
                     successful_fixes := st.successful_fixes + 1 }
        | some false => st1
        | none => st1
  else st

/-- The output of `fix_accessibility_issues`: either the detection result is
passed through unchanged (error or no issues), or the fix report. -/
inductive FixOutput where
  | passthrough (r : PResult)
  | report (st : FixState) (issues_detected : Nat)

/-- The issues for which a fix was attempted. -/
def FixOutput.attempted : FixOutput → List Issue
  | .passthrough _ => []
  | .report st _ => st.attempted

/-- `LLMClient.fix_accessibility_issues(code, filename, model)`: detect first,
then run the fix loop over the validated issues.  `fo` provides the results of
the remediation `_call_model` calls in order. -/
def fix_accessibility_issues (o : LLMOracle) (fo : Nat → Option FixCallResult)
    (rsearch : FixPattern → PyStr → Bool) (code : PyStr) (model : PyStr) : FixOutput :=
  let det := detect_accessibility_issues o code model
  if det.error.isSome ∨ det.issues.isEmpty then .passthrough det
  else .report (det.issues.foldl (fixStep fo rsearch) { fixed_code := code }) det.issues.length

/-! ### Replicate adapter -/

/-- The per-call timeout (seconds) the Replicate adapter passes to
`asyncio.wait_for`. -/
def replicateTimeoutSeconds : Nat := 180

/-- Outcome of the awaited `run_replicate` executor job: it timed out, raised,
could not start for lack of a client, or produced text. -/
inductive RepOutcome where
  | timeout
  | execFail
  | noClient
  | content (s : PyStr)
  deriving Repr

/-- The dict returned by `_call_replicate`'s outer `except Exception` handler:
an error marker, no issues, and an empty `raw_response`. -/
def replicateErrResult (m : ErrMark) : PResult :=
  { total_issues := 0, issues := [], error := some m, raw_response := some [] }

/-- `"<generator object"` as checked by `content.startswith(...)`. -/
def genObjPrefix : PyStr := "<generator object".toList

/-- `"generator"` as checked by `'generator' in content`. -/
def genWord : PyStr := "generator".toList

/-- `LLMClient._call_replicate(prompt)`.  Every failure path, including the
3-minute timeout, is caught by the outer handler and RETURNED as a normal
fallback dict; the function never propagates an exception to its caller. -/
def call_replicate (jp : PyStr → Option JVal) (o : RepOutcome) : PResult :=
  match o with
  | .noClient => replicateErrResult .replicateApiError
  | .execFail => replicateErrResult .replicateApiError
  | .timeout => replicateErrResult .replicateTimeout
  | .content s =>
    let content := pyStrip s
    if content.isEmpty then replicateErrResult .replicateApiError
    else if startsWithB genObjPrefix content || isSubstr genWord content then
      replicateErrResult .replicateApiError
    else parse_json_response jp content

/-! ## Model of `backend/wcag_analyzer.py` (fuzzy content check) -/

/-- `WCAGAnalyzer._fuzzy_match_code(snippet, line_content)`: lowercase and
remove ALL whitespace on both sides; for cleaned snippets longer than 10
characters compare the count of contained long tokens of
`snippet_clean.split()` against 60% of the token count, otherwise require
plain containment. -/
def fuzzy_match_code (snippet line_content : PyStr) : Bool :=
  let snippetClean := removeWs (pyLower snippet)
  let lineClean := removeWs (pyLower line_content)
  if 10 < snippetClean.length then
    let snippetWords := pySplitWs snippetClean
    decide (((snippetWords.countP fun w => decide (3 < w.length) && isSubstr w lineClean : Nat) : ℚ)
      ≥ (snippetWords.length : ℚ) * (6 / 10))
  else isSubstr snippetClean lineClean

/-! ## Definitions modelled from the spec's words (for refinement claims) -/

/-- Modelled from the spec: the fuzzy check the spec describes for longer
snippets — normalize case, split the snippet into whitespace tokens, keep the
significant ones (length > 3), and succeed iff at least 60% of them appear in
the (normalized) line. -/
def specFuzzyLong (snippet line_content : PyStr) : Bool :=
  let lineN := pyLower line_content
  let significant := (pySplitWs (pyLower snippet)).filter (fun w => decide (3 < w.length))
  decide (((significant.countP fun w => isSubstr w lineN : Nat) : ℚ)
    ≥ (significant.length : ℚ) * (6 / 10))

/-- Modelled from the spec: the fix-acceptance rule the spec describes — an
expected improvement pattern for the rule category present post-fix and absent
pre-fix, OR an explicit fix marker present and the fixed text not byte-identical
to the original. -/
def specFixAccept (rsearch : FixPattern → PyStr → Bool)
    (original_code fixed_code : PyStr) (issue : Issue) : Bool :=
  let patterned :=
    match issueTypeOf issue with
    | some t =>
      match fixValidationPatterns t with
      | some pats => pats.any (fun p => rsearch p fixed_code && !rsearch p original_code)
      | none => false
    | none => false
  patterned || (isSubstr fixedMarker fixed_code && !(original_code = fixed_code : Bool))

/-- Modelled from the spec: the capped per-strategy delay the spec prescribes
(`Fixed → initial`, `Linear → initial * attempt`,
`Exponential → initial * base ^ (attempt - 1)`, capped at `max_delay`). -/
def specCappedDelay (cfg : RetryConfig) (attempt : Nat) : ℚ :=
  min (if cfg.strategy = .fixedDelay then cfg.initial_delay
       else if cfg.strategy = .linearBackoff then cfg.initial_delay * attempt
       else cfg.initial_delay * cfg.exponential_base ^ (attempt - 1)) cfg.max_delay

/-- The postcondition of one retry run over a wrapped function `f`: a returned
value is the result of the run's last invocation, all earlier invocations
failed (so the first success is returned immediately), and a raised error
means no invocation succeeded. -/
def RetryPost {α : Type} (f : Nat → Except RErr α) (out : Except (Option RErr) α × Nat) : Prop :=
  (∀ a : α, out.1 = .ok a →
    0 < out.2 ∧ f (out.2 - 1) = .ok a ∧ ∀ j, j < out.2 - 1 → ∀ a' : α, f j ≠ .ok a') ∧
  (∀ e, out.1 = .error e → ∀ j, j < out.2 → ∀ a' : α, f j ≠ .ok a')

/-! ## Concrete instances used by witnesses and counterexamples -/

/-- A `json.loads` oracle on which no string parses (arbitrary non-JSON text). -/
def jpNone : PyStr → Option JVal := fun _ => none

/-- A pattern-search oracle on which no pattern ever matches. -/
def rsNone : FixPattern → PyStr → Bool := fun _ _ => false

/-- A fix-call oracle whose calls all raise. -/
def foNone : Nat → Option FixCallResult := fun _ => none

/-- An issue as returned on the chunked path: one claimed line, bogus snippet. -/
def issueC1 : Issue := { line_numbers := [5], code_snippet := ['x'] }

/-- Chunk oracle for the chunked-path counterexample: the single chunk of the
oversized file reports `issueC1`. -/
def oracleC1 : LLMOracle :=
  { main := none, chunk := fun i => if i = 0 then some { issues := [issueC1] } else none }

/-- A single-line source file of 2001 characters (over the 2000-char bound). -/
def codeC1 : PyStr := List.replicate 2001 'a'

/-- A one-line source file whose single line is an image tag. -/
def codeC1b : PyStr := "<img src=x>".toList

/-- An issue whose snippet exactly matches line 1 of `codeC1b`. -/
def issueC1b : Issue := { line_numbers := [1], code_snippet := "<img src=x>".toList }

/-- Main-call oracle returning exactly `issueC1b`. -/
def oracleC1b : LLMOracle :=
  { main := some { issues := [issueC1b] }, chunk := fun _ => none }

/-- Retry configuration used by witnesses: the `LLM_API_RETRY_CONFIG` shape
with everything retryable and no breaker. -/
def cfgW5 : RetryConfig :=
  { max_attempts := 3, initial_delay := 1, max_delay := 30, exponential_base := 2,
    strategy := .exponentialBackoff, retryableP := fun _ => true, jitter := true,
    circuitBreaker := none }

/-- A wrapped function failing on its first invocation and succeeding after. -/
def fW5 : Nat → Except RErr Nat := fun j => if j = 0 then .error (.err 0) else .ok 7

/-- The retry configuration `_call_model` builds for the Replicate provider
(max 3 attempts, everything retryable, the provider's circuit breaker). -/
def cfgC10 : RetryConfig :=
  { max_attempts := 3, initial_delay := 1, max_delay := 30, exponential_base := 2,
    strategy := .exponentialBackoff, retryableP := fun _ => true, jitter := true,
    circuitBreaker := some (initBreaker 5 60) }

/-- Retry configuration for the delay witness (exponential, jitter on). -/
def cfgW7 : RetryConfig :=
  { max_attempts := 3, initial_delay := 1, max_delay := 60, exponential_base := 2,
    strategy := .exponentialBackoff, retryableP := fun _ => true, jitter := true,
    circuitBreaker := none }

/-- A ten-line source file for the out-of-bounds validator scenario. -/
def codeW3 : PyStr := joinLines (List.replicate 10 ['y'])

/-- A finding claiming the nonexistent line 11. -/
def issueW3 : Issue := { line_numbers := [11], code_snippet := ['x'] }

/-- A 250-line source file for the chunk-reassembly witness. -/
def codeW4 : PyStr := joinLines (List.replicate 250 ['x'])

/-- A finding reported at local line 5 of the chunk starting at line 201. -/
def issueW4 : Issue := { line_numbers := [5], code_snippet := ['x'] }

/-- Chunk oracle reporting `issueW4` for the chunk at offset 200. -/
def oracleW4 : Nat → Option PResult :=
  fun i => if i = 200 then some { issues := [issueW4] } else none

/-- The snippet of the fuzzy-match counterexample (three significant tokens). -/
def c8snippet : PyStr := "hello world foobar".toList

/-- A line containing all three tokens of `c8snippet`, in a different order. -/
def c8line : PyStr := "foobar world hello".toList

/-- An issue with an empty guideline (no pattern category applies). -/
def issueC9 : Issue := {}

/-- The `gpt-4o` model string (a model that never takes the chunked path). -/
def gpt4o : PyStr := "gpt-4o".toList

/-! ## Helper lemmas -/

theorem concatAll_mem {α : Type} (ls : List (List α)) (a : α) :
    a ∈ concatAll ls ↔ ∃ l ∈ ls, a ∈ l := by
  induction ls with
  | nil => simp [concatAll]
  | cons l ls ih =>
    have hstep : concatAll (l :: ls) = l ++ concatAll ls := rfl
    simp [hstep, ih]

theorem on_success_rt (b : CircuitBreaker) :
    (on_success b).recovery_timeout = b.recovery_timeout := by
  unfold on_success
  split
  · split <;> rfl
  · split <;> rfl

theorem on_failure_rt (b : CircuitBreaker) (now : ℚ) :
    (on_failure b now).recovery_timeout = b.recovery_timeout := by
  unfold on_failure
  split
  · rfl
  · split <;> rfl

theorem execWork_rt (b : CircuitBreaker) (now : ℚ) (o : CallOutcome) :
    (execWork b now o).1.recovery_timeout = b.recovery_timeout := by
  cases o with
  | success => exact on_success_rt b
  | failure => exact on_failure_rt b now

theorem call_async_rt (b : CircuitBreaker) (now : ℚ) (o : CallOutcome) :
    (call_async b now o).1.recovery_timeout = b.recovery_timeout := by
  unfold call_async
  split
  · split
    · exact execWork_rt _ now o
    · rfl
  · exact execWork_rt b now o

theorem runTrace_rt (b : CircuitBreaker) (events : List (ℚ × CallOutcome)) :
    (runTrace b events).recovery_timeout = b.recovery_timeout := by
  induction events generalizing b with
  | nil => rfl
  | cons e es ih =>
    have : runTrace b (e :: es) = runTrace (call_async b e.1 e.2).1 es := rfl
    rw [this, ih, call_async_rt]

theorem on_success_state_ne_opened (b : CircuitBreaker) (hb : b.state ≠ .opened) :
    (on_success b).state ≠ .opened := by
  unfold on_success
  split
  · split <;> simp_all
  · split <;> simp_all

theorem on_failure_lf (b : CircuitBreaker) (now : ℚ) :
    (on_failure b now).last_failure_time = some now := by
  unfold on_failure
  split
  · rfl
  · split <;> rfl

theorem call_async_inv (b : CircuitBreaker) (now : ℚ) (o : CallOutcome)
    (hinv : b.state = .opened → b.last_failure_time.isSome) :
    (call_async b now o).1.state = .opened → (call_async b now o).1.last_failure_time.isSome := by
  unfold call_async
  split
  · split
    · cases o with
      | success =>
        intro hs
        exact absurd hs (on_success_state_ne_opened _ (by simp))
      | failure => intro _; simp [execWork, on_failure_lf]
    · exact hinv
  · cases o with
    | success =>
      intro hs
      exact absurd hs (on_success_state_ne_opened b (by assumption))
    | failure => intro _; simp [execWork, on_failure_lf]

theorem runTrace_inv (b : CircuitBreaker) (events : List (ℚ × CallOutcome))
    (hinv : b.state = .opened → b.last_failure_time.isSome) :
    (runTrace b events).state = .opened → (runTrace b events).last_failure_time.isSome := by
  induction events generalizing b with
  | nil => exact hinv
  | cons e es ih =>
    have hstep : runTrace b (e :: es) = runTrace (call_async b e.1 e.2).1 es := rfl
    rw [hstep]
    exact ih _ (call_async_inv b e.1 e.2 hinv)

/-- C2: for every sequence of call outcomes driving a circuit breaker from its
initial state, whenever the breaker is `OPEN` it has a recorded last failure
time `t`; a call arriving before `recovery_timeout` seconds have elapsed since
`t` is rejected without executing the wrapped work and leaves the state
unchanged, and a call arriving after the timeout runs the work on the breaker
transitioned to `HALF_OPEN` first. -/
theorem c2_circuit_open_blocks_calls (ft : Nat) (rt : ℚ) (events : List (ℚ × CallOutcome))
    (now : ℚ) (o : CallOutcome)
    (hopen : (runTrace (initBreaker ft rt) events).state = .opened) :
    ∃ t, (runTrace (initBreaker ft rt) events).last_failure_time = some t ∧
      (now - t < rt →
        call_async (runTrace (initBreaker ft rt) events) now o
          = (runTrace (initBreaker ft rt) events, .rejected)) ∧
      (rt ≤ now - t →
        call_async (runTrace (initBreaker ft rt) events) now o
          = execWork { runTrace (initBreaker ft rt) events with
                        state := .halfOpen, success_count := 0 } now o) := by
  set b := runTrace (initBreaker ft rt) events with hb
  have hrt : b.recovery_timeout = rt := by
    rw [hb, runTrace_rt]
    rfl
  have hsome : b.last_failure_time.isSome := by
    refine runTrace_inv (initBreaker ft rt) events ?_ hopen
    intro h
    simp [initBreaker] at h
  obtain ⟨t, ht⟩ := Option.isSome_iff_exists.mp hsome
  refine ⟨t, ht, ?_, ?_⟩
  · intro hlt
    have hres : should_attempt_reset b now = false := by
      unfold should_attempt_reset
      rw [ht, hrt]
      simp only [decide_eq_false_iff_not, not_le]
      exact hlt
    unfold call_async
    rw [if_pos hopen, hres]
    simp
  · intro hge
    have hres : should_attempt_reset b now = true := by
      unfold should_attempt_reset
      rw [ht, hrt]
      simp only [decide_eq_true_eq]
      exact hge
    unfold call_async
    rw [if_pos hopen, hres]
    simp

/-- Witness for C2: with `failure_threshold = 1` and `recovery_timeout = 60`,
one failure at time 0 opens the breaker, and a call at time 30 is rejected
without the work being executed. -/
theorem c2_witness :
    call_async (runTrace (initBreaker 1 60) [((0 : ℚ), CallOutcome.failure)]) 30
        CallOutcome.success
      = (runTrace (initBreaker 1 60) [((0 : ℚ), CallOutcome.failure)], CallResult.rejected) := by
  obtain ⟨t, ht, h1, _⟩ := c2_circuit_open_blocks_calls 1 60 [((0 : ℚ), CallOutcome.failure)] 30
    CallOutcome.success (by decide)
  have ht0 : t = 0 := by
    have h0 : (runTrace (initBreaker 1 60) [((0 : ℚ), CallOutcome.failure)]).last_failure_time
        = some 0 := by decide
    rw [h0] at ht
    exact (Option.some_inj.mp ht).symm
  refine h1 ?_
  rw [ht0]
  norm_num

theorem attemptOnce_cases {α : Type} (cb : Option CircuitBreaker) (f : Nat → Except RErr α)
    (ncalls : Nat) (now : ℚ) :
    (∃ cb1, attemptOnce cb f ncalls now = (cb1, ncalls, .error .circuitOpen)) ∨
    (∃ cb1, attemptOnce cb f ncalls now = (cb1, ncalls + 1, f ncalls)) := by
  cases cb with
  | none => exact Or.inr ⟨none, rfl⟩
  | some b =>
    unfold attemptOnce
    dsimp only
    by_cases hs : b.state = .opened
    · rw [if_pos hs]
      by_cases hr : should_attempt_reset b now = true
      · rw [if_pos hr]
        cases hf : f ncalls with
        | ok a => exact Or.inr ⟨_, rfl⟩
        | error e => exact Or.inr ⟨_, rfl⟩
      · rw [if_neg hr]
        exact Or.inl ⟨some b, rfl⟩
    · rw [if_neg hs]
      cases hf : f ncalls with
      | ok a => exact Or.inr ⟨_, rfl⟩
      | error e => exact Or.inr ⟨_, rfl⟩

theorem retryGo_spec {α : Type} (cfg : RetryConfig) (f : Nat → Except RErr α) (times : Nat → ℚ) :
    ∀ (r : Nat) (cb : Option CircuitBreaker) (attempt ncalls : Nat) (lastE : Option RErr),
      (∀ j, j < ncalls → ∀ a : α, f j ≠ .ok a) →
      (retryGo cfg f times cb attempt ncalls lastE r).2 ≤ ncalls + r ∧
      RetryPost f (retryGo cfg f times cb attempt ncalls lastE r) := by
  intro r
  induction r with
  | zero =>
    intro cb attempt ncalls lastE hprev
    refine ⟨Nat.le_refl _, ?_, ?_⟩
    · intro a ha
      exact absurd ha (by simp [retryGo])
    · intro e _ j hj a'
      exact hprev j hj a'
  | succ r ih =>
    intro cb attempt ncalls lastE hprev
    rcases attemptOnce_cases cb f ncalls (times attempt) with ⟨cb1, hA⟩ | ⟨cb1, hA⟩
    · -- breaker rejection: the work is not invoked
      rw [show retryGo cfg f times cb attempt ncalls lastE (r + 1)
            = (if should_retry cfg cb1 RErr.circuitOpen attempt then
                retryGo cfg f times cb1 (attempt + 1) ncalls (some .circuitOpen) r
              else (.error (some .circuitOpen), ncalls)) by
            rw [retryGo, hA]]
      split
      · have h := ih cb1 (attempt + 1) ncalls (some .circuitOpen) hprev
        exact ⟨h.1.trans (by omega), h.2⟩
      · refine ⟨by omega, ?_, ?_⟩
        · intro a ha
          exact absurd ha (by simp)
        · intro e _ j hj a'
          exact hprev j hj a'
    · -- the work is invoked as invocation number ncalls
      cases hf : f ncalls with
      | ok a =>
        rw [show retryGo cfg f times cb attempt ncalls lastE (r + 1) = (.ok a, ncalls + 1) by
              rw [retryGo, hA, hf]]
        refine ⟨by omega, ?_, ?_⟩
        · intro a0 ha0
          have : a = a0 := by simpa using ha0
          subst this
          refine ⟨by omega, ?_, ?_⟩
          · simpa using hf
          · intro j hj a'
            exact hprev j (by omega) a'
        · intro e he
          exact absurd he (by simp)
      | error e =>
        have hprev' : ∀ j, j < ncalls + 1 → ∀ a : α, f j ≠ .ok a := by
          intro j hj a
          rcases Nat.lt_succ_iff_lt_or_eq.mp hj with h | h
          · exact hprev j h a
          · subst h
            rw [hf]
            simp
        rw [show retryGo cfg f times cb attempt ncalls lastE (r + 1)
              = (if should_retry cfg cb1 e attempt then
                  retryGo cfg f times cb1 (attempt + 1) (ncalls + 1) (some e) r
                else (.error (some e), ncalls + 1)) by
              rw [retryGo, hA, hf]]
        split
        · have h := ih cb1 (attempt + 1) (ncalls + 1) (some e) hprev'
          exact ⟨h.1.trans (by omega), h.2⟩
        · refine ⟨by omega, ?_, ?_⟩
          · intro a ha
            exact absurd ha (by simp)
          · intro e' _ j hj a'
            exact hprev' j hj a'

/-- C5: one run of the retry orchestrator (`retry_async` or `retry_sync`)
invokes the wrapped function at most `max_attempts` times; a returned value is
the result of the run's last invocation with every earlier invocation failing
(the first success is returned immediately), and when an error is raised no
invocation succeeded. -/
theorem c5_retry_bound {α : Type} (cfg : RetryConfig) (f : Nat → Except RErr α)
    (times : Nat → ℚ) :
    (retry_async cfg f times).2 ≤ cfg.max_attempts ∧
    RetryPost f (retry_async cfg f times) ∧
    (retry_sync cfg f times).2 ≤ cfg.max_attempts ∧
    RetryPost f (retry_sync cfg f times) := by
  have h := retryGo_spec cfg f times cfg.max_attempts cfg.circuitBreaker 1 0 none
    (by intro j hj a; omega)
  exact ⟨by simpa [retry_async] using h.1, h.2, by simpa [retry_sync] using h.1, h.2⟩

/-- Witness for C5: with 3 attempts allowed and a function failing once then
returning 7, the orchestrator makes at most 3 invocations and the invocation
it returns from yields 7. -/
theorem c5_witness :
    (retry_async cfgW5 fW5 (fun _ => 0)).2 ≤ 3 ∧
    fW5 ((retry_async cfgW5 fW5 (fun _ => 0)).2 - 1) = .ok 7 := by
  have h := c5_retry_bound cfgW5 fW5 (fun _ => 0)
  have hok : (retry_async cfgW5 fW5 (fun _ => 0)).1 = .ok 7 := rfl
  exact ⟨h.1, (h.2.1.1 7 hok).2.1⟩

/-- C7: for attempts `n ≥ 1` and nonnegative configuration values, the delay
computed by `get_delay` is the per-strategy delay of the spec (`Fixed →
initial_delay`, `Linear → initial_delay * n`, `Exponential → initial_delay *
base ^ (n - 1)`) capped at `max_delay`; with jitter enabled the returned value
stays within ±10% of that capped value, and it is never negative. -/
theorem c7_delay_computation (cfg : RetryConfig) (attempt : Nat) (r : ℚ)
    (hn : 1 ≤ attempt) (hstrat : cfg.strategy ≠ .noRetry)
    (hr1 : -1 ≤ r) (hr2 : r ≤ 1)
    (hi : 0 ≤ cfg.initial_delay) (hm : 0 ≤ cfg.max_delay)
    (hb : 0 ≤ cfg.exponential_base) :
    0 ≤ get_delay cfg attempt r ∧
    (cfg.jitter = true →
      specCappedDelay cfg attempt - specCappedDelay cfg attempt / 10
          ≤ get_delay cfg attempt r ∧
      get_delay cfg attempt r
          ≤ specCappedDelay cfg attempt + specCappedDelay cfg attempt / 10) ∧
    (cfg.jitter = false → get_delay cfg attempt r = specCappedDelay cfg attempt) := by
  have hd0 : 0 ≤ (if cfg.strategy = .fixedDelay then cfg.initial_delay
      else if cfg.strategy = .linearBackoff then cfg.initial_delay * attempt
      else cfg.initial_delay * cfg.exponential_base ^ (attempt - 1)) := by
    split
    · exact hi
    · split
      · exact mul_nonneg hi (by positivity)
      · exact mul_nonneg hi (pow_nonneg hb _)
  have hc : 0 ≤ specCappedDelay cfg attempt := by
    unfold specCappedDelay
    exact le_min hd0 hm
  have hget : get_delay cfg attempt r =
      (if cfg.jitter then
        max 0 (specCappedDelay cfg attempt
          + r * (specCappedDelay cfg attempt * (1 / 10)))
      else specCappedDelay cfg attempt) := by
    unfold get_delay specCappedDelay
    rw [if_neg hstrat]
  set c := specCappedDelay cfg attempt with hcdef
  have hup : r * (c * (1 / 10)) ≤ c / 10 := by
    have := mul_le_mul_of_nonneg_right hr2 (by positivity : (0 : ℚ) ≤ c * (1 / 10))
    linarith
  have hlo : -(c / 10) ≤ r * (c * (1 / 10)) := by
    have := mul_le_mul_of_nonneg_right hr1 (by positivity : (0 : ℚ) ≤ c * (1 / 10))
    linarith
  cases hj : cfg.jitter with
  | false =>
    rw [hget, hj]
    refine ⟨by simpa using hc, ?_, fun _ => by simp⟩
    intro h
    exact absurd h (by simp)
  | true =>
    rw [hget, hj]
    have hpos : 0 ≤ c + r * (c * (1 / 10)) := by linarith
    have hmax : max 0 (c + r * (c * (1 / 10))) = c + r * (c * (1 / 10)) :=
      max_eq_right hpos
    refine ⟨by simp [hmax, hpos], ?_, ?_⟩
    · intro _
      rw [if_pos rfl, hmax]
      constructor <;> linarith
    · intro h
      exact absurd h (by simp)

/-- Witness for C7: exponential strategy with `initial_delay = 1`, `base = 2`,
jitter on, attempt 3 and maximal positive jitter sample: the delay is
nonnegative and at most the capped value 4 plus 10%. -/
theorem c7_witness :
    0 ≤ get_delay cfgW7 3 1 ∧
    get_delay cfgW7 3 1 ≤ specCappedDelay cfgW7 3 + specCappedDelay cfgW7 3 / 10 := by
  have h := c7_delay_computation cfgW7 3 1 (by norm_num) (by decide) (by norm_num)
    (by norm_num) (by norm_num [cfgW7]) (by norm_num [cfgW7]) (by norm_num [cfgW7])
  exact ⟨h.1, (h.2.1 rfl).2⟩

theorem validate_issue_accuracy_eq (issue : Issue) (code : PyStr)
    (h : issue.line_numbers ≠ []) :
    validate_issue_accuracy issue code =
      { is_valid := decide ((1 : ℚ) / 2 ≤
          ((issue.line_numbers.countP fun n =>
              (checkLine (pyLines code) (pyStrip issue.code_snippet) n).1 : Nat) : ℚ)
            / ((issue.line_numbers.length : Nat) : ℚ)),
        confidence :=
          ((issue.line_numbers.countP fun n =>
              (checkLine (pyLines code) (pyStrip issue.code_snippet) n).1 : Nat) : ℚ)
            / ((issue.line_numbers.length : Nat) : ℚ),
        validation_notes := issue.line_numbers.map
          (fun n => (checkLine (pyLines code) (pyStrip issue.code_snippet) n).2) } := by
  rcases hln : issue.line_numbers with _ | ⟨n0, ns⟩
  · exact absurd hln h
  · unfold validate_issue_accuracy
    rw [hln]
    simp only [List.countP_map, List.map_map]
    rfl

/-- C3: for a finding with a nonempty claimed line list, the attached
confidence is the number of claimed lines passing the per-line check divided by
the number of claimed lines, validity is exactly `confidence ≥ 1/2`, an
out-of-range line never passes the check, and in the concrete scenario of a
10-line source with `line_numbers = [11]` the confidence is 0, the finding is
invalid, and the detection filter drops it. -/
theorem c3_validator_confidence (issue : Issue) (code : PyStr)
    (h : issue.line_numbers ≠ []) :
    (validate_issue_accuracy issue code).confidence =
      ((issue.line_numbers.countP fun n =>
          (checkLine (pyLines code) (pyStrip issue.code_snippet) n).1 : Nat) : ℚ)
        / ((issue.line_numbers.length : Nat) : ℚ) ∧
    ((validate_issue_accuracy issue code).is_valid = true ↔
      (1 : ℚ) / 2 ≤ (validate_issue_accuracy issue code).confidence) ∧
    (∀ n ∈ issue.line_numbers, ¬(1 ≤ n ∧ n ≤ ((pyLines code).length : Int)) →
      (checkLine (pyLines code) (pyStrip issue.code_snippet) n).1 = false) ∧
    ((pyLines code).length = 10 → issue.line_numbers = [11] →
      (validate_issue_accuracy issue code).confidence = 0 ∧
      (validate_issue_accuracy issue code).is_valid = false ∧
      ∀ raw : PResult, raw.issues = [issue] → (validateAndFilter raw code).issues = []) := by
  have heq := validate_issue_accuracy_eq issue code h
  refine ⟨by rw [heq], by rw [heq]; simp, ?_, ?_⟩
  · intro n _ hn
    unfold checkLine
    rw [if_neg hn]
  · intro h10 h11
    have hcheck : (checkLine (pyLines code) (pyStrip issue.code_snippet) 11).1 = false := by
      unfold checkLine
      rw [if_neg]
      rw [h10]
      norm_num
    have hconf : (validate_issue_accuracy issue code).confidence = 0 := by
      rw [heq]
      simp [h11, List.countP_cons, hcheck]
    refine ⟨hconf, ?_, ?_⟩
    · rw [heq]
      simp only [decide_eq_false_iff_not, not_le]
      rw [h11]
      simp [List.countP_cons, hcheck]
    · intro raw hraw
      unfold validateAndFilter
      rw [hraw]
      simp only [List.isEmpty_cons, Bool.false_eq_true, if_false]
      simp [List.filterMap_cons, hconf, validate_issue_accuracy_eq issue code h,
        h11, List.countP_cons, hcheck]

/-- Witness for C3: a 10-line source and a finding claiming line 11 yield
confidence 0, an invalid finding, and an empty filtered issue list. -/
theorem c3_witness :
    (validate_issue_accuracy issueW3 codeW3).confidence = 0 ∧
    (validate_issue_accuracy issueW3 codeW3).is_valid = false ∧
    (validateAndFilter { issues := [issueW3] } codeW3).issues = [] := by
  obtain ⟨-, -, -, hsc⟩ := c3_validator_confidence issueW3 codeW3 (by decide)
  obtain ⟨h1, h2, h3⟩ := hsc (by decide) rfl
  exact ⟨h1, h2, h3 _ rfl⟩

/-- C4: a finding returned for the chunk at line offset `i` (global start line
`S = i + 1`) has every claimed line number shifted by `S - 1` before merging,
appears in the merged issue list of the chunked analysis, and a local line `k`
of that chunk appears in its adjusted line numbers as the global line
`S + k - 1`. -/
theorem c4_chunk_reassembly (oracle : Nat → Option PResult) (code : PyStr) (i : Nat)
    (res : PResult) (issue : Issue) (k : Int)
    (hi : i ∈ chunkStarts (pyLines code).length)
    (hne : (pyStrip (chunkOf (pyLines code) i)).isEmpty = false)
    (ho : oracle i = some res)
    (hiss : issue ∈ res.issues)
    (hk : k ∈ issue.line_numbers) :
    (adjustIssue i (pyLines code).length issue).line_numbers
        = issue.line_numbers.map (fun q => q + (((i : Int) + 1) - 1)) ∧
    adjustIssue i (pyLines code).length issue ∈ (detect_issues_chunked oracle code).issues ∧
    (((i : Int) + 1) + k - 1) ∈ (adjustIssue i (pyLines code).length issue).line_numbers := by
  have harith : ((i : Int) + 1) - 1 = (i : Int) := by ring
  refine ⟨?_, ?_, ?_⟩
  · rw [harith]
    rfl
  · unfold detect_issues_chunked
    simp only
    rw [concatAll_mem]
    refine ⟨processChunk oracle (pyLines code) i, List.mem_map_of_mem _ hi, ?_⟩
    unfold processChunk
    rw [hne, ho]
    simp only [Bool.false_eq_true, if_false]
    rw [if_neg (by simp [List.isEmpty_iff]; exact List.ne_nil_of_mem hiss)]
    exact List.mem_map_of_mem _ hiss
  · unfold adjustIssue
    simp only [List.mem_map]
    exact ⟨k, hk, by ring⟩

set_option maxRecDepth 40000 in
/-- Witness for C4: a 250-line file yields chunks at offsets 0, 100, 200; a
finding at local line 5 of the chunk starting at line 201 reassembles into the
merged list with global line 205. -/
theorem c4_witness :
    adjustIssue 200 (pyLines codeW4).length issueW4
        ∈ (detect_issues_chunked oracleW4 codeW4).issues ∧
    (205 : Int) ∈ (adjustIssue 200 (pyLines codeW4).length issueW4).line_numbers := by
  obtain ⟨-, h2, h3⟩ := c4_chunk_reassembly oracleW4 codeW4 200 { issues := [issueW4] }
    issueW4 5 (by decide) (by decide) rfl (by decide) (by decide)
  refine ⟨h2, ?_⟩
  have : ((200 : Nat) : Int) + 1 + 5 - 1 = (205 : Int) := by norm_num
  rw [this] at h3
  exact h3

theorem excerpt500_length (c : PyStr) : (excerpt500 c).length ≤ 503 := by
  unfold excerpt500
  split
  · rw [List.length_append, List.length_take]
    simp only [List.length_cons, List.length_nil]
    omega
  · omega

theorem regexFallback_of_none (jp : PyStr → Option JVal) (content : PyStr)
    (hjp : ∀ s, jp s = none) :
    regexFallback jp content = parseFailResult content := by
  unfold regexFallback
  cases findChar '{' content with
  | none => rfl
  | some s =>
    cases rfindChar '}' content with
    | none => rfl
    | some e =>
      simp only
      split
      · rw [hjp]
      · rfl

/-- C6: on input on which no substring parses as JSON (arbitrary non-JSON
text), the response parser returns a value with an empty issue list, an
explicit parse-failure error marker, and a `raw_response` excerpt of the
(fence-stripped) content whose length is bounded by 503 characters. -/
theorem c6_parser_robustness (jp : PyStr → Option JVal) (content : PyStr)
    (hjp : ∀ s, jp s = none) :
    (parse_json_response jp content).issues = [] ∧
    (parse_json_response jp content).error = some .parseFail ∧
    (parse_json_response jp content).raw_response
        = some (excerpt500 (stripFences content)) ∧
    (excerpt500 (stripFences content)).length ≤ 503 := by
  have hfall : parse_json_response jp content = parseFailResult (stripFences content) := by
    unfold parse_json_response
    simp only
    cases findChar '{' (stripFences content) with
    | none => exact regexFallback_of_none jp _ hjp
    | some s =>
      cases rfindChar '}' (stripFences content) with
      | none => exact regexFallback_of_none jp _ hjp
      | some e =>
        simp only
        split
        · rw [hjp]
          exact regexFallback_of_none jp _ hjp
        · exact regexFallback_of_none jp _ hjp
  rw [hfall]
  exact ⟨rfl, rfl, rfl, excerpt500_length _⟩

/-- Witness for C6: on the plain text `hello` with a never-succeeding JSON
oracle, the parser returns the explicit parse-failure marker. -/
theorem c6_witness :
    (parse_json_response jpNone "hello".toList).error = some .parseFail :=
  (c6_parser_robustness jpNone "hello".toList (fun _ => rfl)).2.1

theorem pySplitWsAux_no_ws (s : PyStr) (hs : ∀ c ∈ s, pyIsWs c = false) :
    ∀ acc : PyStr, acc.isEmpty = false → pySplitWsAux s acc = [acc.reverse ++ s] := by
  induction s with
  | nil =>
    intro acc hacc
    unfold pySplitWsAux
    rw [hacc]
    simp
  | cons c rest ih =>
    intro acc hacc
    unfold pySplitWsAux
    rw [hs c (List.mem_cons_self c rest)]
    simp only [Bool.false_eq_true, if_false]
    rw [ih (fun x hx => hs x (List.mem_cons_of_mem c hx)) (c :: acc) rfl]
    simp

theorem pySplitWs_no_ws (s : PyStr) (hs : ∀ c ∈ s, pyIsWs c = false) (hne : s ≠ []) :
    pySplitWs s = [s] := by
  rcases s with _ | ⟨c, rest⟩
  · exact absurd rfl hne
  · unfold pySplitWs pySplitWsAux
    rw [hs c (List.mem_cons_self c rest)]
    simp only [Bool.false_eq_true, if_false]
    rw [pySplitWsAux_no_ws rest (fun x hx => hs x (List.mem_cons_of_mem c hx)) [c] rfl]
    simp

theorem removeWs_no_ws (s : PyStr) : ∀ c ∈ removeWs s, pyIsWs c = false := by
  intro c hc
  have h := (List.mem_filter.mp hc).2
  simpa using h

/-- C8 (amended): the fuzzy content check is equivalent, for every snippet and
line, to containment of the fully cleaned snippet (lowercased, ALL whitespace
removed) in the fully cleaned line; in the long-snippet branch the token list
degenerates to the single whitespace-free cleaned snippet, so the 60% rule
reduces to full containment. -/
theorem c8_fuzzy_is_containment (snippet line_content : PyStr) :
    fuzzy_match_code snippet line_content
      = isSubstr (removeWs (pyLower snippet)) (removeWs (pyLower line_content)) := by
  unfold fuzzy_match_code
  simp only
  split
  · next h =>
    have hne : removeWs (pyLower snippet) ≠ [] := by
      intro h0
      rw [h0] at h
      simp at h
    rw [pySplitWs_no_ws _ (removeWs_no_ws _) hne]
    have h3 : decide (3 < (removeWs (pyLower snippet)).length) = true := by
      simp only [decide_eq_true_eq]
      omega
    cases hsub : isSubstr (removeWs (pyLower snippet)) (removeWs (pyLower line_content)) with
    | false =>
      simp only [List.countP_cons, List.countP_nil, hsub, h3, Bool.true_and,
        Bool.false_eq_true, if_false, List.length_cons, List.length_nil]
      norm_num
    | true =>
      simp only [List.countP_cons, List.countP_nil, hsub, h3, Bool.true_and,
        if_true, List.length_cons, List.length_nil]
      norm_num
  · rfl

/-- Counterexample for C8 as stated: the snippet `hello world foobar` is a
longer snippet (cleaned length 16 > 10) all three of whose significant tokens
appear in the line `foobar world hello`, so the spec's 60% rule accepts, but
the code's fuzzy check rejects because the concatenated cleaned snippet is not
a substring of the cleaned line. -/
theorem c8_counterexample :
    specFuzzyLong c8snippet c8line = true ∧
    fuzzy_match_code c8snippet c8line = false ∧
    10 < (removeWs (pyLower c8snippet)).length := by
  refine ⟨?_, ?_, by decide⟩
  · unfold specFuzzyLong
    simp only
    have h1 : ((pySplitWs (pyLower c8snippet)).filter
        (fun w => decide (3 < w.length))).countP
        (fun w => isSubstr w (pyLower c8line)) = 3 := by decide
    have h2 : ((pySplitWs (pyLower c8snippet)).filter
        (fun w => decide (3 < w.length))).length = 3 := by decide
    rw [h1, h2]
    norm_num
  · unfold fuzzy_match_code
    simp only
    rw [if_pos (by decide : 10 < (removeWs (pyLower c8snippet)).length)]
    have h1 : (pySplitWs (removeWs (pyLower c8snippet))).countP
        (fun w => decide (3 < w.length) && isSubstr w (removeWs (pyLower c8line))) = 0 := by
      decide
    have h2 : (pySplitWs (removeWs (pyLower c8snippet))).length = 1 := by decide
    rw [h1, h2]
    norm_num

/-- C9 (amended): whenever the fix-quality check returns a verdict (no
exception), it accepts exactly when some expected improvement pattern for the
finding's rule category matches the post-fix text but not the original, OR the
post-fix text contains the `// FIXED` marker, OR the post-fix text is strictly
longer (in characters) than the original. -/
theorem c9_fix_quality_verdict (rsearch : FixPattern → PyStr → Bool)
    (original_code fixed_code : PyStr) (issue : Issue) (b : Bool)
    (h : validate_fix_quality rsearch original_code fixed_code issue = some b) :
    (b = true ↔
      (∃ t pats p, issueTypeOf issue = some t ∧ fixValidationPatterns t = some pats ∧
        p ∈ pats ∧ rsearch p fixed_code = true ∧ rsearch p original_code = false) ∨
      isSubstr fixedMarker fixed_code = true ∨
      original_code.length < fixed_code.length) := by
  unfold validate_fix_quality at h
  cases hT : issueTypeOf issue with
  | none => rw [hT] at h; exact absurd h (by simp)
  | some t =>
    rw [hT] at h
    simp only [Option.some_inj] at h
    subst h
    simp only [Bool.or_eq_true, decide_eq_true_eq]
    constructor
    · rintro ((hpat | hmk) | hlen)
      · cases hP : fixValidationPatterns t with
        | none => rw [hP] at hpat; exact absurd hpat (by simp)
        | some pats =>
          rw [hP] at hpat
          obtain ⟨p, hp, hcond⟩ := List.any_eq_true.mp hpat
          rw [Bool.and_eq_true, Bool.not_eq_true'] at hcond
          exact Or.inl ⟨t, pats, p, rfl, hP, hp, hcond.1, hcond.2⟩
      · exact Or.inr (Or.inl hmk)
      · exact Or.inr (Or.inr hlen)
    · rintro (⟨t', pats, p, ht', hpats, hp, hfix, horig⟩ | hmk | hlen)
      · have htt : t = t' := Option.some_inj.mp ht'
        subst htt
        refine Or.inl (Or.inl ?_)
        rw [hpats]
        refine List.any_eq_true.mpr ⟨p, hp, ?_⟩
        rw [Bool.and_eq_true, Bool.not_eq_true']
        exact ⟨hfix, horig⟩
      · exact Or.inl (Or.inr hmk)
      · exact Or.inr hlen

/-- Counterexample for C9 as stated: with no pattern hit and no `// FIXED`
marker, the code accepts the fix `x → xy` merely because the fixed text is
longer, while the spec's rule (pattern improvement OR marker plus changed text)
rejects it. -/
theorem c9_counterexample :
    validate_fix_quality rsNone "x".toList "xy".toList issueC9 = some true ∧
    specFixAccept rsNone "x".toList "xy".toList issueC9 = false := by
  decide

/-- Witness for C9: applying the amended equivalence to the concrete accepted
fix `x → xy` shows one of the three accepting conditions holds. -/
theorem c9_witness :
    (∃ t pats p, issueTypeOf issueC9 = some t ∧ fixValidationPatterns t = some pats ∧
      p ∈ pats ∧ rsNone p "xy".toList = true ∧ rsNone p "x".toList = false) ∨
    isSubstr fixedMarker "xy".toList = true ∨
    ("x".toList).length < ("xy".toList).length :=
  (c9_fix_quality_verdict rsNone "x".toList "xy".toList issueC9 true (by decide)).mp rfl

theorem fixGate_spec (issue : Issue) (h : fixGate issue = true) :
    ∃ v, issue.validation = some v ∧ (1 : ℚ) / 2 ≤ v.confidence := by
  unfold fixGate at h
  cases hv : issue.validation with
  | none => rw [hv] at h; exact absurd h (by simp)
  | some v =>
    rw [hv] at h
    exact ⟨v, rfl, by simpa using h⟩

theorem fixStep_attempted (fo : Nat → Option FixCallResult)
    (rsearch : FixPattern → PyStr → Bool) (st : FixState) (issue : Issue) :
    (fixStep fo rsearch st issue).attempted
      = if fixGate issue then st.attempted ++ [issue] else st.attempted := by
  unfold fixStep
  split
  · split
    · rfl
    · split
      · rfl
      · split <;> rfl
  · rfl

theorem fixLoop_attempted_gated (fo : Nat → Option FixCallResult)
    (rsearch : FixPattern → PyStr → Bool) :
    ∀ (issues : List Issue) (st : FixState),
      (∀ i ∈ st.attempted, fixGate i = true) →
      ∀ i ∈ (issues.foldl (fixStep fo rsearch) st).attempted, fixGate i = true := by
  intro issues
  induction issues with
  | nil => intro st h; simpa using h
  | cons x xs ih =>
    intro st h
    simp only [List.foldl_cons]
    refine ih _ ?_
    intro i hi
    rw [fixStep_attempted] at hi
    split at hi
    · rcases List.mem_append.mp hi with h1 | h2
      · exact h i h1
      · have hx := List.mem_singleton.mp h2
        subst hx
        assumption
    · exact h i hi

/-- C1 (amended): on the non-chunked detection path every surfaced finding
carries an attached validation result with confidence at least 0.3, and on
every path a fix is attempted for a finding only if it carries an attached
validation result with confidence at least 0.5.  (The chunked path violates
the original claim: it attaches no validation at all, see the
counterexample.) -/
theorem c1_confidence_gating (o : LLMOracle) (fo : Nat → Option FixCallResult)
    (rsearch : FixPattern → PyStr → Bool) (code : PyStr) (model : PyStr) :
    (¬(model = llamaModel ∧ 2000 < code.length) →
      ∀ issue ∈ (detect_accessibility_issues o code model).issues,
        ∃ v, issue.validation = some v ∧ (3 : ℚ) / 10 ≤ v.confidence) ∧
    (∀ issue ∈ (fix_accessibility_issues o fo rsearch code model).attempted,
      ∃ v, issue.validation = some v ∧ (1 : ℚ) / 2 ≤ v.confidence) := by
  constructor
  · intro h issue hmem
    unfold detect_accessibility_issues at hmem
    rw [if_neg h] at hmem
    cases ho : o.main with
    | none =>
      rw [ho] at hmem
      change issue ∈ detectErrorResult.issues at hmem
      exact absurd hmem (by simp [detectErrorResult])
    | some raw =>
      rw [ho] at hmem
      change issue ∈ (validateAndFilter raw code).issues at hmem
      unfold validateAndFilter at hmem
      split at hmem
      · next hemp =>
        rw [List.isEmpty_iff.mp hemp] at hmem
        exact absurd hmem (by simp)
      · simp only [List.mem_filterMap] at hmem
        obtain ⟨a, _, hfa⟩ := hmem
        split at hfa
        · next hcond =>
          rw [Option.some_inj] at hfa
          subst hfa
          exact ⟨validate_issue_accuracy a code, rfl, hcond⟩
        · exact absurd hfa (by simp)
  · intro issue hmem
    unfold fix_accessibility_issues at hmem
    dsimp only at hmem
    split at hmem
    · exact absurd hmem (by simp [FixOutput.attempted])
    · have hg := fixLoop_attempted_gated fo rsearch
        (detect_accessibility_issues o code model).issues { fixed_code := code }
        (by intro i hi; exact absurd hi (by simp)) issue hmem
      exact fixGate_spec issue hg

theorem pyLines_no_newline (s : PyStr) (hs : ∀ c ∈ s, ¬(c = '\n')) : pyLines s = [s] := by
  induction s with
  | nil => rfl
  | cons c rest ih =>
    unfold pyLines
    rw [if_neg (hs c (List.mem_cons_self c rest))]
    rw [ih (fun x hx => hs x (List.mem_cons_of_mem c hx))]

theorem dropWhile_replicate_not (n : Nat) (a : Char) (ha : pyIsWs a = false) :
    List.dropWhile pyIsWs (List.replicate n a) = List.replicate n a := by
  induction n with
  | zero => rfl
  | succ n ih =>
    rw [List.replicate_succ, List.dropWhile_cons, ha]
    simp

theorem pyStrip_replicate (n : Nat) (a : Char) (ha : pyIsWs a = false) :
    pyStrip (List.replicate n a) = List.replicate n a := by
  unfold pyStrip
  rw [dropWhile_replicate_not n a ha, List.reverse_replicate, dropWhile_replicate_not n a ha,
    List.reverse_replicate]

theorem joinLines_singleton (s : PyStr) : joinLines [s] = s := by
  simp [joinLines, List.intercalate]

/-- Counterexample for C1 as stated: an oversized (2001-character) file
analyzed with the chunking model returns a finding whose `validation` field is
absent, so not every surfaced finding carries an attached validation result
with confidence at least 0.3. -/
theorem c1_counterexample :
    (detect_accessibility_issues oracleC1 codeC1 llamaModel).issues.map Issue.validation
      = [none] := by
  have hno : ∀ c ∈ codeC1, ¬(c = '\n') := by
    intro c hc
    rw [codeC1, List.mem_replicate] at hc
    rw [hc.2]
    decide
  have h1 : pyLines codeC1 = [codeC1] := pyLines_no_newline codeC1 hno
  have hlen : codeC1.length = 2001 := by
    rw [codeC1, List.length_replicate]
  have hbranch : llamaModel = llamaModel ∧ 2000 < codeC1.length := ⟨rfl, by omega⟩
  have hstrip : (pyStrip codeC1).isEmpty = false := by
    rw [codeC1, pyStrip_replicate 2001 'a' (by decide)]
    rw [List.isEmpty_eq_false]
    intro hnil
    have hL := congrArg List.length hnil
    rw [List.length_replicate] at hL
    simp at hL
  have hchunk : chunkOf [codeC1] 0 = codeC1 := by
    unfold chunkOf
    simp only [List.drop_zero, List.take_cons, List.take_nil]
    exact joinLines_singleton codeC1
  have hproc : processChunk oracleC1.chunk [codeC1] 0 = [adjustIssue 0 1 issueC1] := by
    unfold processChunk
    rw [hchunk, hstrip]
    simp only [Bool.false_eq_true, if_false]
    have ho : oracleC1.chunk 0 = some { issues := [issueC1] } := rfl
    rw [ho]
    rfl
  unfold detect_accessibility_issues
  rw [if_pos hbranch]
  unfold detect_issues_chunked
  simp only [h1]
  have hL1 : ([codeC1] : List PyStr).length = 1 := rfl
  have hcs : chunkStarts 1 = [0] := by decide
  rw [hL1, hcs]
  simp only [List.map_cons, List.map_nil]
  rw [hproc]
  rfl

/-- Witness for C1: on the non-chunked path, the finding surfaced for a
one-line image tag carries an attached validation with confidence ≥ 0.3. -/
theorem c1_witness :
    ∃ v, ({ issueC1b with
        validation := some (validate_issue_accuracy issueC1b codeC1b) } : Issue).validation
      = some v ∧ (3 : ℚ) / 10 ≤ v.confidence := by
  have hconf : (validate_issue_accuracy issueC1b codeC1b).confidence = 1 := by
    rw [validate_issue_accuracy_eq issueC1b codeC1b (by decide)]
    have hc : issueC1b.line_numbers.countP
        (fun n => (checkLine (pyLines codeC1b) (pyStrip issueC1b.code_snippet) n).1) = 1 := by
      decide
    have hl : issueC1b.line_numbers.length = 1 := by decide
    simp only [hc, hl]
    norm_num
  have hdet : detect_accessibility_issues oracleC1b codeC1b gpt4o
      = validateAndFilter { issues := [issueC1b] } codeC1b := by
    unfold detect_accessibility_issues
    rw [if_neg (by decide)]
    rfl
  have hlist : (validateAndFilter { issues := [issueC1b] } codeC1b).issues
      = [{ issueC1b with validation := some (validate_issue_accuracy issueC1b codeC1b) }] := by
    unfold validateAndFilter
    simp only [List.isEmpty_cons, Bool.false_eq_true, if_false]
    rw [List.filterMap_cons]
    rw [if_pos (by rw [hconf]; norm_num)]
    simp
  refine (c1_confidence_gating oracleC1b foNone rsNone codeC1b gpt4o).1 (by decide) _ ?_
  rw [hdet, hlist]
  exact List.mem_singleton.mpr rfl

/-- C10 (amended): the Replicate adapter enforces a 180-second per-call
timeout, but when it fires the adapter catches the resulting error and RETURNS
a normal fallback result (no issues, timeout error message, empty raw
response) instead of raising; consequently the retry orchestrator, run with
the provider's (closed) circuit breaker, treats the attempt as a success: it
performs exactly one invocation and returns the fallback as its result, so a
timed-out attempt is never retried.  The other adapters enforce no explicit
per-call timeout. -/
theorem c10_replicate_timeout (jp : PyStr → Option JVal) (cfg : RetryConfig) (times : Nat → ℚ)
    (hcb : cfg.circuitBreaker = some (initBreaker 5 60))
    (hma : 1 ≤ cfg.max_attempts) :
    replicateTimeoutSeconds = 180 ∧
    call_replicate jp RepOutcome.timeout = replicateErrResult .replicateTimeout ∧
    (retry_async cfg (fun _ => Except.ok (call_replicate jp RepOutcome.timeout)) times).1
      = Except.ok (call_replicate jp RepOutcome.timeout) ∧
    (retry_async cfg (fun _ => Except.ok (call_replicate jp RepOutcome.timeout)) times).2 = 1 := by
  obtain ⟨m, hm⟩ : ∃ m, cfg.max_attempts = m + 1 := ⟨cfg.max_attempts - 1, by omega⟩
  have hrun : retry_async cfg (fun _ => Except.ok (call_replicate jp RepOutcome.timeout)) times
      = (Except.ok (call_replicate jp RepOutcome.timeout), 1) := by
    unfold retry_async
    rw [hm, hcb]
    rfl
  exact ⟨rfl, rfl, by rw [hrun], by rw [hrun]⟩

/-- Counterexample for C10 as stated: a timed-out Replicate call produces a
normally returned result (empty issues, timeout error message), and the retry
orchestrator configured as in `_call_model` performs exactly one invocation
and returns it as a success — the timeout is not surfaced as a retryable
error and the attempt is not retried. -/
theorem c10_counterexample :
    (call_replicate jpNone RepOutcome.timeout).error = some .replicateTimeout ∧
    (call_replicate jpNone RepOutcome.timeout).issues = [] ∧
    (retry_async cfgC10 (fun _ => Except.ok (call_replicate jpNone RepOutcome.timeout))
      (fun _ => 0)).2 = 1 ∧
    (retry_async cfgC10 (fun _ => Except.ok (call_replicate jpNone RepOutcome.timeout))
      (fun _ => 0)).1 = Except.ok (call_replicate jpNone RepOutcome.timeout) :=
  ⟨rfl, rfl, rfl, rfl⟩

/-- Witness for C10: the amended theorem applied to the concrete `_call_model`
retry configuration for the Replicate provider. -/
theorem c10_witness :
    call_replicate jpNone RepOutcome.timeout = replicateErrResult .replicateTimeout ∧
    (retry_async cfgC10 (fun _ => Except.ok (call_replicate jpNone RepOutcome.timeout))
      (fun _ => 0)).2 = 1 := by
  obtain ⟨-, h2, -, h4⟩ := c10_replicate_timeout jpNone cfgC10 (fun _ => 0) rfl (by norm_num [cfgC10])
  exact ⟨h2, h4⟩

end A11y
